import Mathlib

set_option maxHeartbeats 1000000

/-!
Shallow embedding of the core model of PyHeapProfiler
(`src/models/heap_dump.py`, class `HeapDumpModel`).

JSON values parsed by `orjson.loads` are modelled by `JValue`; Python
dicts are association lists in insertion order.  orjson deduplicates
keys on parse, so dicts arising from a parsed file have pairwise
distinct keys; no definition below relies on that invariant except
where noted.  JSON numbers are modelled as integers: the claims under
study never exercise float-specific behaviour (the spec itself types
`size` as a non-negative integer).
-/

inductive JValue where
  | num (n : Int)
  | str (s : String)
  | bool (b : Bool)
  | null
  | arr (elems : List JValue)
  | obj (entries : List (String × JValue))

/-- Substring test on lists of characters: `listStartsWith n h` holds when
`n` is a prefix of `h`. -/
def listStartsWith : List Char → List Char → Bool
  | [], _ => true
  | _ :: _, [] => false
  | a :: as, b :: bs => a == b && listStartsWith as bs

/-- `listContainsSub n h` holds when `n` occurs as a contiguous sublist of
`h`; this is Python's `n in h` for strings. -/
def listContainsSub (needle : List Char) : List Char → Bool
  | [] => listStartsWith needle []
  | hay@(_ :: rest) => listStartsWith needle hay || listContainsSub needle rest

/-- Python's substring operator `needle in hay` on strings. -/
def strContains (hay needle : String) : Bool :=
  listContainsSub needle.toList hay.toList

/-- Python truthiness of an optional string argument (`None` and the empty
string are falsy). -/
def truthyOpt : Option String → Bool
  | none => false
  | some s => !s.isEmpty

/-- Numeric view used by Python `==`: `bool` is a subclass of `int`, so
`True == 1` holds. -/
def pyNumVal : JValue → Option Int
  | .num n => some n
  | .bool b => some (if b then 1 else 0)
  | _ => none

mutual
/-- Python's `==` on parsed JSON values: numbers compare by value (with
booleans as 0/1), lists compare pointwise in order, dicts compare by key
set and per-key value equality, independent of insertion order. -/
def pyEq : JValue → JValue → Bool
  | .num a, .num b => a == b
  | .num a, .bool b => a == (if b then (1 : Int) else 0)
  | .bool a, .num b => (if a then (1 : Int) else 0) == b
  | .bool a, .bool b => a == b
  | .str a, .str b => a == b
  | .null, .null => true
  | .arr as, .arr bs => pyEqList as bs
  | .obj as, .obj bs => (as.length == bs.length) && pyEqEntries as bs
  | _, _ => false

/-- Pointwise equality of two Python lists. -/
def pyEqList : List JValue → List JValue → Bool
  | [], [] => true
  | a :: as, b :: bs => pyEq a b && pyEqList as bs
  | _, _ => false

/-- Every key of the first dict is present in the second with a
Python-equal value. -/
def pyEqEntries : List (String × JValue) → List (String × JValue) → Bool
  | [], _ => true
  | (k, v) :: rest, bs =>
    (match List.lookup k bs with
     | some w => pyEq v w
     | none => false) && pyEqEntries rest bs
end

mutual
/-- Python `repr` of a parsed JSON value (strings quoted, `True`, `None`,
lists in square brackets, dicts in braces). -/
def pyRepr : JValue → String
  | .num n => toString n
  | .str s => "\x27" ++ s ++ "\x27"
  | .bool b => if b then "True" else "False"
  | .null => "None"
  | .arr xs => "[" ++ pyReprList xs ++ "]"
  | .obj es => "\x7b" ++ pyReprEntries es ++ "\x7d"

/-- Comma-separated `repr`s of list elements. -/
def pyReprList : List JValue → String
  | [] => ""
  | [x] => pyRepr x
  | x :: rest => pyRepr x ++ ", " ++ pyReprList rest

/-- Comma-separated `key: value` pairs of a dict `repr`. -/
def pyReprEntries : List (String × JValue) → String
  | [] => ""
  | [(k, v)] => "\x27" ++ k ++ "\x27" ++ ": " ++ pyRepr v
  | (k, v) :: rest =>
    "\x27" ++ k ++ "\x27" ++ ": " ++ pyRepr v ++ ", " ++ pyReprEntries rest
end

/-- Python `str` of a parsed JSON value: a string is itself, everything
else renders as its `repr`. -/
def pyStr : JValue → String
  | .str s => s
  | v => pyRepr v

/-- Structural validation failures raised by `validate_dump_structure`
(`HeapDumpValidationError`); each carries the offending type/id. -/
inductive ValErr where
  | notADict
  | emptyDump
  | typeNotDict (t : String)
  | objNotDict (t id : String)
deriving DecidableEq

/-- Non-fatal diagnostics logged by `validate_dump_structure`. -/
inductive FieldWarning where
  | missingSize (t id : String)
  | nonNumericSize (t id : String)
deriving DecidableEq

/-- Errors a load can raise: `FileNotFoundError`, `orjson.JSONDecodeError`
(re-raised as `ValueError`), `HeapDumpValidationError`, and the unhandled
Python runtime errors (`TypeError`/`AttributeError`) re-raised by the
final generic handler. -/
inductive LoadError where
  | fileNotFound
  | parseError
  | validation (e : ValErr)
  | runtimeError
deriving DecidableEq

/-- Python `isinstance(x, (int, float))` on a parsed JSON value; `bool`
is a subclass of `int`. -/
def isNumericValue : JValue → Bool
  | .num _ => true
  | .bool _ => true
  | _ => false

/-- Inner loop of `validate_dump_structure` over the objects of one type:
each object value must be a dict; a missing `size` key and a present but
non-numeric `size` only produce warnings, in source order. -/
def validateObjs (t : String) : List (String × JValue) → Except ValErr (List FieldWarning)
  | [] => .ok []
  | (id, od) :: rest =>
    match od with
    | .obj fields =>
      let w1 : List FieldWarning :=
        if (List.lookup "size" fields).isNone then [.missingSize t id] else []
      let w2 : List FieldWarning :=
        match List.lookup "size" fields with
        | some v => if isNumericValue v then [] else [.nonNumericSize t id]
        | none => []
      match validateObjs t rest with
      | .ok ws => .ok (w1 ++ w2 ++ ws)
      | .error e => .error e
    | _ => .error (.objNotDict t id)

/-- Outer loop of `validate_dump_structure` over the types: each type's
value must be a dict. -/
def validateTypes : List (String × JValue) → Except ValErr (List FieldWarning)
  | [] => .ok []
  | (t, objs) :: rest =>
    match objs with
    | .obj entries =>
      match validateObjs t entries with
      | .ok ws =>
        match validateTypes rest with
        | .ok ws2 => .ok (ws ++ ws2)
        | .error e => .error e
      | .error e => .error e
    | _ => .error (.typeNotDict t)

/-- `HeapDumpModel.validate_dump_structure`: the parsed data must be a
non-empty dict of dicts of dicts; the first violation aborts with a
`HeapDumpValidationError`.  On success the collected size diagnostics
are returned. -/
def validate_dump_structure (v : JValue) : Except ValErr (List FieldWarning) :=
  match v with
  | .obj entries =>
    if entries.isEmpty then .error .emptyDump
    else validateTypes entries
  | _ => .error .notADict

/-- One entry of `processed_data`: the per-type aggregate
`{'num_objects': ..., 'total_size': ..., 'objects': ...}`. -/
structure TypeAgg where
  num_objects : Nat
  total_size : Int
  objects : List (String × JValue)

/-- The observable state of a `HeapDumpModel` instance. -/
structure Store where
  data : JValue
  processed_data : List (String × TypeAgg)
  total_objects : Nat
  total_size : Int

/-- `HeapDumpModel.__init__`: empty data, empty aggregates, zero totals. -/
def Store.init : Store := ⟨.obj [], [], 0, 0⟩

/-- The size one object contributes in `sum(obj.get('size', 0) for obj in
objs.values())`: a missing `size` counts 0; `none` models the Python
exception (`AttributeError` when the object is not a dict, `TypeError`
when `0 + size` is not numeric). -/
def objSize : JValue → Option Int
  | .obj fields =>
    match List.lookup "size" fields with
    | none => some 0
    | some (.num n) => some n
    | some (.bool b) => some (if b then 1 else 0)
    | some _ => none
  | _ => none

/-- Left-to-right accumulation of `sum(obj.get('size', 0) ...)`; the
first non-summable object raises. -/
def sumSizes : List JValue → Int → Option Int
  | [], acc => some acc
  | o :: rest, acc =>
    match objSize o with
    | some s => sumSizes rest (acc + s)
    | none => none

/-- The mutating loop of `process_data`: for each type, `len(objs)` and the
size sum are computed, then the type's aggregate entry and the running
grand totals are stored.  An exception mid-loop (second component
`false`) leaves the already-accumulated entries and totals in place. -/
def processLoop : List (String × JValue) → List (String × TypeAgg) → Nat → Int →
    (List (String × TypeAgg) × Nat × Int) × Bool
  | [], pd, tObjs, tSize => ((pd, tObjs, tSize), true)
  | (t, objs) :: rest, pd, tObjs, tSize =>
    match objs with
    | .obj entries =>
      match sumSizes (entries.map (fun p => p.2)) 0 with
      | some s =>
        processLoop rest (pd ++ [(t, ⟨entries.length, s, entries⟩)])
          (tObjs + entries.length) (tSize + s)
      | none => ((pd, tObjs, tSize), false)
    | _ => ((pd, tObjs, tSize), false)

/-- `HeapDumpModel.process_data`: resets `processed_data` and the totals,
then runs the aggregation loop over `self.data.items()`.  The Bool is
`false` when the Python code raises (non-dict data or a non-summable
`size`), in which case the partially-written state is kept. -/
def process_data (st : Store) : Store × Bool :=
  match st.data with
  | .obj entries =>
    let r := processLoop entries [] 0 0
    ({ st with processed_data := r.1.1, total_objects := r.1.2.1,
               total_size := r.1.2.2 }, r.2)
  | _ => ({ st with processed_data := [], total_objects := 0, total_size := 0 }, false)

/-- What the dump file on disk amounts to for a load: absent, undecodable
JSON, or a parsed value. -/
inductive FileContent where
  | missing
  | invalid
  | parsed (v : JValue)

/-- `HeapDumpModel.load_data` (synchronous): read + parse (`self.data` is
assigned as soon as parsing succeeds), then `validate_dump_structure`,
then `process_data`.  Returns the state after the call together with the
raised exception, if any. -/
def load_data (st : Store) (f : FileContent) : Store × Option LoadError :=
  match f with
  | .missing => (st, some .fileNotFound)
  | .invalid => (st, some .parseError)
  | .parsed v =>
    let st1 := { st with data := v }
    match validate_dump_structure v with
    | .error e => (st1, some (.validation e))
    | .ok _ =>
      let r := process_data st1
      (r.1, if r.2 then none else some .runtimeError)

/-- `HeapDumpModel._load_in_background` (asynchronous load body): read +
parse, then `process_data` directly — it does not call
`validate_dump_structure`. -/
def load_in_background (st : Store) (f : FileContent) : Store × Option LoadError :=
  match f with
  | .missing => (st, some .fileNotFound)
  | .invalid => (st, some .parseError)
  | .parsed v =>
    let st1 := { st with data := v }
    let r := process_data st1
    (r.1, if r.2 then none else some .runtimeError)

/-- The zero aggregate `{'num_objects': 0, 'total_size': 0, 'objects': {}}`
used by `compare_with` for a type absent from one side. -/
def defaultAgg : TypeAgg := ⟨0, 0, []⟩

/-- `self.processed_data.get(obj_type, default)`. -/
def lookupAgg (pd : List (String × TypeAgg)) (t : String) : TypeAgg :=
  (List.lookup t pd).getD defaultAgg

/-- Union of two key lists.  The Python code iterates
`set(a).union(b)`, whose order is unspecified; the claims only read the
resulting mappings by key, so a canonical order (keys of `a`, then the
new keys of `b`) is used. -/
def unionKeys (a b : List String) : List String :=
  a ++ b.filter (fun k => !a.contains k)

/-- One entry of a `compare_with` result. -/
structure CompEntry where
  num_objects_main : Nat
  num_objects_other : Nat
  num_new_objects : Int
  num_deleted_objects : Int
  total_size_main : Int
  total_size_other : Int
  size_change : Int
  size_percent_change : ℚ
deriving DecidableEq

/-- The arithmetic of one iteration of the `compare_with` loop. -/
def mkCompEntry (d od : TypeAgg) : CompEntry :=
  let num_objects_main := d.num_objects
  let num_objects_other := od.num_objects
  let num_new : Int := (num_objects_other : Int) - (num_objects_main : Int)
  let num_deleted : Int := (num_objects_main : Int) - (num_objects_other : Int)
  let total_size_main := d.total_size
  let total_size_other := od.total_size
  let size_change := total_size_other - total_size_main
  let size_percent_change : ℚ :=
    if total_size_main = 0 then 0
    else (size_change : ℚ) / (total_size_main : ℚ) * 100
  ⟨num_objects_main, num_objects_other,
   if num_new > 0 then num_new else 0,
   if num_deleted > 0 then num_deleted else 0,
   total_size_main, total_size_other, size_change, size_percent_change⟩

/-- `HeapDumpModel.compare_with`: one `CompEntry` per type in the union of
the two stores' type names, each side defaulting to the zero aggregate. -/
def compare_with (st other : Store) : List (String × CompEntry) :=
  (unionKeys (st.processed_data.map (fun p => p.1))
             (other.processed_data.map (fun p => p.1))).map
    (fun t => (t, mkCompEntry (lookupAgg st.processed_data t)
                              (lookupAgg other.processed_data t)))

/-- The four object statuses. -/
inductive ObjStatus where
  | Old
  | Modified
  | Deleted
  | New
deriving DecidableEq

/-- `self.processed_data.get(obj_type, {}).get('objects', {})`. -/
def typeObjects (st : Store) (t : String) : List (String × JValue) :=
  ((List.lookup t st.processed_data).map (fun a => a.objects)).getD []

/-- The `if`/`elif`/`else` body of the `get_object_statuses` loop. -/
def statusOf (cur oth : List (String × JValue)) (id : String) : ObjStatus :=
  match List.lookup id cur, List.lookup id oth with
  | some a, some b => if pyEq a b then .Old else .Modified
  | some _, none => .Deleted
  | none, _ => .New

/-- `HeapDumpModel.get_object_statuses`: one status per object id in the
union of the two stores' ids for the type. -/
def get_object_statuses (st : Store) (t : String) (other : Store) :
    List (String × ObjStatus) :=
  let cur := typeObjects st t
  let oth := typeObjects other t
  (unionKeys (cur.map (fun p => p.1)) (oth.map (fun p => p.1))).map
    (fun id => (id, statusOf cur oth id))

/-- The id half of the `match` flag in `_search_in_type`:
`if search_id and search_id not in str(obj_id): match = False`. -/
def idMatches (sid : Option String) (id : String) : Bool :=
  !(truthyOpt sid && !strContains id (sid.getD ""))

/-- The attribute half of the `match` flag: `obj_data.get('attr', {})`
must be a dict (else Python raises, modelled by `none`) and some
attribute value's `str()` must contain the needle. -/
def attrAnyMatch (sav : String) (od : JValue) : Option Bool :=
  match od with
  | .obj fields =>
    match (List.lookup "attr" fields).getD (.obj []) with
    | .obj attrs => some (attrs.any (fun p => strContains (pyStr p.2) sav))
    | _ => none
  | _ => none

/-- Whether one object passes the `_search_in_type` predicates; `none`
models the exception raised while inspecting `attr`. -/
def searchStep (sid sav : Option String) (id : String) (od : JValue) : Option Bool :=
  let m := idMatches sid id
  if truthyOpt sav && m then attrAnyMatch (sav.getD "") od else some m

/-- The filtering loop of `_search_in_type` over one type's objects. -/
def searchInTypeLoop (sid sav : Option String) :
    List (String × JValue) → Option (List (String × JValue))
  | [] => some []
  | (id, od) :: rest =>
    match searchStep sid sav id od with
    | none => none
    | some true => (searchInTypeLoop sid sav rest).map (fun l => (id, od) :: l)
    | some false => searchInTypeLoop sid sav rest

/-- `HeapDumpModel._search_in_type`. -/
def searchInType (st : Store) (t : String) (sid sav : Option String) :
    Option (List (String × JValue)) :=
  searchInTypeLoop sid sav (typeObjects st t)

/-- Python `dict.update`: existing keys keep their position and take the
new value; genuinely new keys are appended in order. -/
def dictUpdate (d upd : List (String × JValue)) : List (String × JValue) :=
  d.map (fun p =>
    match List.lookup p.1 upd with
    | some v2 => (p.1, v2)
    | none => p) ++
  upd.filter (fun p => (List.lookup p.1 d).isNone)

/-- The `results.update(self._search_in_type(ot, ...))` loop of
`search_objects` over `self.processed_data.keys()`. -/
def searchAllLoop (st : Store) (sid sav : Option String) :
    List String → List (String × JValue) → Option (List (String × JValue))
  | [], acc => some acc
  | t :: rest, acc =>
    match searchInType st t sid sav with
    | none => none
    | some l => searchAllLoop st sid sav rest (dictUpdate acc l)

/-- `HeapDumpModel.search_objects`.  In all-types mode the merged results
are returned under the single key `obj_type`; in single-type mode an
empty filtered dict yields `{}`.  Either way `num_objects` and
`total_size` are recomputed from the surviving objects (the size sum can
itself raise, modelled by `none`). -/
def search_objects (st : Store) (t : String) (sid sav : Option String)
    (searchInTypes : Bool) : Option (List (String × TypeAgg)) :=
  if searchInTypes then
    match searchAllLoop st sid sav (st.processed_data.map (fun p => p.1)) [] with
    | none => none
    | some results =>
      match sumSizes (results.map (fun p => p.2)) 0 with
      | none => none
      | some s => some [(t, ⟨results.length, s, results⟩)]
  else
    match searchInType st t sid sav with
    | none => none
    | some filtered =>
      if filtered.isEmpty then some []
      else
        match sumSizes (filtered.map (fun p => p.2)) 0 with
        | none => none
        | some s => some [(t, ⟨filtered.length, s, filtered⟩)]

/-- The `if`/`elif` chain of `filter_comparison_by_status` deciding
whether one type's entry is kept for a non-empty status list. -/
def statusCondMatches (statuses : List String) (e : CompEntry) : Bool :=
  (statuses.contains "New" && decide (e.num_new_objects > 0)) ||
  (statuses.contains "Deleted" && decide (e.num_deleted_objects > 0)) ||
  (statuses.contains "Old" && decide (e.num_objects_main = e.num_objects_other) &&
    decide (e.num_new_objects = 0) && decide (e.num_deleted_objects = 0)) ||
  (statuses.contains "Modified" && decide (e.num_objects_other ≠ e.num_objects_main))

/-- `HeapDumpModel.filter_comparison_by_status`: an entry is kept when the
chain matches or the status list is empty (falsy). -/
def filter_comparison_by_status (cr : List (String × CompEntry))
    (statuses : List String) : List (String × CompEntry) :=
  cr.filter (fun p => statusCondMatches statuses p.2 || statuses.isEmpty)

/-- Dump A from the spec: Foo has objects 1 (size 100) and 2 (size 200). -/
def dumpA : JValue :=
  .obj [("Foo", .obj [("1", .obj [("size", .num 100)]),
                      ("2", .obj [("size", .num 200)])])]

/-- Dump B from the spec: Foo has objects 1 (size 150) and 3 (size 50). -/
def dumpB : JValue :=
  .obj [("Foo", .obj [("1", .obj [("size", .num 150)]),
                      ("3", .obj [("size", .num 50)])])]

/-- A dump with a single type Bar absent from dump A. -/
def dumpC : JValue :=
  .obj [("Bar", .obj [("7", .obj [("size", .num 50)])])]

/-- A dump with the same object id in two types, for the all-types
search merge. -/
def dumpD : JValue :=
  .obj [("T1", .obj [("x", .obj [("size", .num 1)])]),
        ("T2", .obj [("x", .obj [("size", .num 2)])])]

/-- The store obtained by loading dump A. -/
def storeA : Store := (load_data Store.init (.parsed dumpA)).1

/-- The store obtained by loading dump B. -/
def storeB : Store := (load_data Store.init (.parsed dumpB)).1

/-- The store obtained by loading dump C. -/
def storeC : Store := (load_data Store.init (.parsed dumpC)).1

/-- The store obtained by loading dump D. -/
def storeD : Store := (load_data Store.init (.parsed dumpD)).1

/-- A dump whose only object carries a non-numeric `size`. -/
def badSizeDump : JValue :=
  .obj [("T", .obj [("1", .obj [("size", .str "oops")])])]

/-- A dump whose only object has no `size` field at all. -/
def missingSizeDump : JValue :=
  .obj [("T", .obj [("1", .obj [])])]

/-- The aggregate dump A produces for type Foo. -/
def aggFooA : TypeAgg :=
  ⟨2, 300, [("1", .obj [("size", .num 100)]), ("2", .obj [("size", .num 200)])]⟩

/-- The aggregate dump B produces for type Foo. -/
def aggFooB : TypeAgg :=
  ⟨2, 200, [("1", .obj [("size", .num 150)]), ("3", .obj [("size", .num 50)])]⟩

/-- The aggregate dump C produces for type Bar. -/
def aggBarC : TypeAgg :=
  ⟨1, 50, [("7", .obj [("size", .num 50)])]⟩

/-- The comparison entry for Foo when comparing store A against store B. -/
def entryFooAB : CompEntry := mkCompEntry aggFooA aggFooB

/-- The comparison entry for Bar when comparing store A against store C:
the main side has no Bar, so its aggregate is the zero default. -/
def entryBarAC : CompEntry := mkCompEntry defaultAgg aggBarC

/-- The aggregate returned by the all-types search over store D. -/
def aggMergedD : TypeAgg :=
  ⟨1, 2, [("x", .obj [("size", .num 2)])]⟩

/-- The aggregate a single-type search of store A for ids containing 1
recomputes over the lone surviving object. -/
def aggFoo1 : TypeAgg :=
  ⟨1, 100, [("1", .obj [("size", .num 100)])]⟩

/-- Looking a key up in a list of key-value pairs built by tagging each key
of `l` with `f` yields `f t` exactly when `t` occurs in `l`. -/
theorem lookup_map_key {β : Type} (l : List String) (f : String → β) (t : String) :
    List.lookup t (l.map (fun x => (x, f x))) = if t ∈ l then some (f t) else none := by
  induction l with
  | nil => rfl
  | cons x xs ih =>
    by_cases h : t = x
    · subst h
      simp [List.lookup]
    · have hb : (t == x) = false := beq_eq_false_iff_ne.mpr h
      simp [List.lookup, hb, h, ih]

/-- Membership in `unionKeys` is membership in either list. -/
theorem mem_unionKeys {a b : List String} {t : String} :
    t ∈ unionKeys a b ↔ t ∈ a ∨ t ∈ b := by
  by_cases h : t ∈ a <;> simp [unionKeys, List.mem_filter, h]

/-- A lookup succeeds exactly when the key occurs among the first
components. -/
theorem lookup_isSome_iff {β : Type} (l : List (String × β)) (t : String) :
    (List.lookup t l).isSome ↔ t ∈ l.map (fun p => p.1) := by
  induction l with
  | nil => simp [List.lookup]
  | cons p ps ih =>
    obtain ⟨k, v⟩ := p
    by_cases h : t = k
    · subst h
      simp [List.lookup]
    · have hb : (t == k) = false := beq_eq_false_iff_ne.mpr h
      simp only [List.lookup, hb, List.map_cons, List.mem_cons]
      rw [ih]
      simp [h]

/-- A lookup fails exactly when the key is absent from the first
components. -/
theorem lookup_eq_none_iff {β : Type} (l : List (String × β)) (t : String) :
    List.lookup t l = none ↔ t ∉ l.map (fun p => p.1) := by
  rw [← lookup_isSome_iff, Option.isSome_iff_ne_none]
  tauto

/-- With pairwise distinct keys, a lookup into a filtered list succeeds
with a value exactly when the unfiltered lookup finds that value and the
entry passes the filter. -/
theorem lookup_filter_nodup {β : Type} (l : List (String × β)) (p : String × β → Bool)
    (hnd : (l.map (fun q => q.1)).Nodup) (t : String) (e : β) :
    List.lookup t (l.filter p) = some e ↔
      List.lookup t l = some e ∧ p (t, e) = true := by
  induction l with
  | nil => simp [List.lookup]
  | cons q qs ih =>
    obtain ⟨k, v⟩ := q
    simp only [List.map_cons, List.nodup_cons] at hnd
    obtain ⟨hk, hnd2⟩ := hnd
    by_cases h : t = k
    · subst h
      have hnone : List.lookup t (qs.filter p) = none := by
        rw [lookup_eq_none_iff]
        intro hmem
        exact hk (by
          obtain ⟨q2, hq2, hfst⟩ := List.mem_map.mp hmem
          exact List.mem_map.mpr ⟨q2, (List.mem_filter.mp hq2).1, hfst⟩)
      cases hp : p (t, v) with
      | true =>
        have l1 : List.lookup t (((t, v) :: qs).filter p) = some v := by
          simp [List.filter_cons, hp, List.lookup]
        have l2 : List.lookup t ((t, v) :: qs) = some v := by
          simp [List.lookup]
        rw [l1, l2]
        constructor
        · intro hv
          rw [Option.some.injEq] at hv
          subst hv
          exact ⟨rfl, hp⟩
        · intro hv
          exact hv.1
      | false =>
        have l1 : List.lookup t (((t, v) :: qs).filter p) = none := by
          simp [List.filter_cons, hp, hnone]
        have l2 : List.lookup t ((t, v) :: qs) = some v := by
          simp [List.lookup]
        rw [l1, l2]
        constructor
        · intro hc
          exact Option.noConfusion hc
        · rintro ⟨hv, hpe⟩
          rw [Option.some.injEq] at hv
          subst hv
          simp [hp] at hpe
    · have hb : (t == k) = false := beq_eq_false_iff_ne.mpr h
      cases hp : p (k, v) with
      | true => simp [List.filter_cons, hp, List.lookup, hb, ih hnd2]
      | false => simp [List.filter_cons, hp, List.lookup, hb, ih hnd2]

/-- Lookup distributes over list append, preferring the left list. -/
theorem lookup_append {β : Type} (xs ys : List (String × β)) (t : String) :
    List.lookup t (xs ++ ys) =
      match List.lookup t xs with
      | some v => some v
      | none => List.lookup t ys := by
  induction xs with
  | nil => simp [List.lookup]
  | cons q qs ih =>
    obtain ⟨k, v⟩ := q
    by_cases h : t = k
    · subst h
      simp [List.lookup]
    · have hb : (t == k) = false := beq_eq_false_iff_ne.mpr h
      simp [List.lookup, hb, ih]

/-- Filters whose predicates agree on entries keyed `t` produce the same
lookup at `t`. -/
theorem lookup_filter_congr {β : Type} (l : List (String × β)) (p q : String × β → Bool)
    (t : String) (hpq : ∀ v, p (t, v) = q (t, v)) :
    List.lookup t (l.filter p) = List.lookup t (l.filter q) := by
  induction l with
  | nil => rfl
  | cons x xs ih =>
    obtain ⟨k, v⟩ := x
    by_cases h : t = k
    · subst h
      rw [List.filter_cons, List.filter_cons, ← hpq v]
      cases hp : p (t, v) <;> simp [List.lookup, ih]
    · have hb : (t == k) = false := beq_eq_false_iff_ne.mpr h
      rw [List.filter_cons, List.filter_cons]
      cases hp : p (k, v) <;> cases hq2 : q (k, v) <;>
        simp [List.lookup, hb, ih]

/-- A lookup into a Python `dict.update` result prefers the updating
dict and falls back to the original. -/
theorem lookup_dictUpdate (d upd : List (String × JValue)) (k : String) :
    List.lookup k (dictUpdate d upd) =
      match List.lookup k upd with
      | some v => some v
      | none => List.lookup k d := by
  induction d with
  | nil =>
    have hfil : upd.filter
        (fun p => (List.lookup p.1 ([] : List (String × JValue))).isNone) = upd := by
      simp [List.lookup]
    rw [dictUpdate, hfil]
    cases hu : List.lookup k upd <;> simp [List.lookup, hu]
  | cons q d2 ih =>
    obtain ⟨k0, v0⟩ := q
    by_cases h : k = k0
    · subst h
      rw [dictUpdate]
      simp only [List.map_cons, List.cons_append]
      cases hu : List.lookup k upd <;> simp [List.lookup, hu]
    · have hb : (k == k0) = false := beq_eq_false_iff_ne.mpr h
      rw [dictUpdate]
      simp only [List.map_cons, List.cons_append]
      have hhead : List.lookup k ((match List.lookup k0 upd with
          | some v2 => (k0, v2)
          | none => (k0, v0)) :: (List.map (fun p =>
            match List.lookup p.1 upd with
            | some v2 => (p.1, v2)
            | none => p) d2 ++ upd.filter (fun p =>
              (List.lookup p.1 ((k0, v0) :: d2)).isNone))) =
          List.lookup k (List.map (fun p =>
            match List.lookup p.1 upd with
            | some v2 => (p.1, v2)
            | none => p) d2 ++ upd.filter (fun p =>
              (List.lookup p.1 ((k0, v0) :: d2)).isNone)) := by
        cases hu0 : List.lookup k0 upd <;> simp [List.lookup, hu0, hb]
      rw [hhead, lookup_append]
      rw [dictUpdate, lookup_append] at ih
      have hcongr : List.lookup k (upd.filter (fun p =>
            (List.lookup p.1 ((k0, v0) :: d2)).isNone)) =
          List.lookup k (upd.filter (fun p => (List.lookup p.1 d2).isNone)) := by
        apply lookup_filter_congr
        intro v
        simp [List.lookup, hb]
      rw [hcongr]
      cases hlk : List.lookup k (List.map (fun p =>
          match List.lookup p.1 upd with
          | some v2 => (p.1, v2)
          | none => p) d2) <;>
        cases hu : List.lookup k upd <;>
          simp only [hlk, hu] at ih ⊢ <;> simp [ih, List.lookup, hb]

/-- The per-type filtered results gathered by the all-types branch of
`search_objects`, in iteration order, before merging. -/
def collectSearches (st : Store) (sid sav : Option String) :
    List String → Option (List (List (String × JValue)))
  | [] => some []
  | t :: rest =>
    match searchInType st t sid sav with
    | none => none
    | some l => (collectSearches st sid sav rest).map (fun ls => l :: ls)

/-- `findSome?` over an append scans the left list first. -/
theorem findSome_append {α β : Type} (xs ys : List α) (f : α → Option β) :
    (xs ++ ys).findSome? f =
      match xs.findSome? f with
      | some v => some v
      | none => ys.findSome? f := by
  induction xs with
  | nil => simp [List.findSome?]
  | cons x xs ih =>
    simp only [List.cons_append, List.findSome?]
    cases f x <;> simp [ih]

/-- The merge loop of `search_objects` is the fold of `dict.update` over
the per-type filtered results. -/
theorem searchAllLoop_eq (st : Store) (sid sav : Option String) :
    ∀ (ts : List String) (acc : List (String × JValue)),
      searchAllLoop st sid sav ts acc =
        (collectSearches st sid sav ts).map (fun fs => fs.foldl dictUpdate acc) := by
  intro ts
  induction ts with
  | nil => intro acc; rfl
  | cons t rest ih =>
    intro acc
    rw [searchAllLoop, collectSearches]
    cases hs : searchInType st t sid sav with
    | none => rfl
    | some l =>
      dsimp only
      rw [ih (dictUpdate acc l)]
      cases hc : collectSearches st sid sav rest <;> simp [List.foldl_cons]

/-- A lookup into the fold of `dict.update` finds the value from the
latest list containing the key, falling back to the accumulator. -/
theorem lookup_foldl_dictUpdate :
    ∀ (fs : List (List (String × JValue))) (acc : List (String × JValue)) (k : String),
      List.lookup k (fs.foldl dictUpdate acc) =
        match fs.reverse.findSome? (fun d => List.lookup k d) with
        | some v => some v
        | none => List.lookup k acc := by
  intro fs
  induction fs with
  | nil => intro acc k; simp [List.findSome?]
  | cons d fs ih =>
    intro acc k
    rw [List.foldl_cons, ih (dictUpdate acc d) k, List.reverse_cons, findSome_append]
    cases h1 : fs.reverse.findSome? (fun d2 => List.lookup k d2) with
    | some v => rfl
    | none =>
      rw [lookup_dictUpdate]
      cases h2 : List.lookup k d <;> simp [List.findSome?, h2]

/-- The aggregation loop preserves the invariant that the running totals
are the sums over the already-written aggregates; on a successful run
the final totals are the sums over the final aggregates. -/
theorem processLoop_sums :
    ∀ (entries : List (String × JValue)) (pd : List (String × TypeAgg))
      (tObjs : Nat) (tSize : Int),
      (processLoop entries pd tObjs tSize).2 = true →
      tObjs = (pd.map (fun p => p.2.num_objects)).sum →
      tSize = (pd.map (fun p => p.2.total_size)).sum →
      (processLoop entries pd tObjs tSize).1.2.1 =
        ((processLoop entries pd tObjs tSize).1.1.map (fun p => p.2.num_objects)).sum ∧
      (processLoop entries pd tObjs tSize).1.2.2 =
        ((processLoop entries pd tObjs tSize).1.1.map (fun p => p.2.total_size)).sum := by
  intro entries
  induction entries with
  | nil =>
    intro pd tObjs tSize hok h1 h2
    exact ⟨h1, h2⟩
  | cons e rest ih =>
    intro pd tObjs tSize hok h1 h2
    obtain ⟨t, objs⟩ := e
    cases objs with
    | obj entries2 =>
      rw [processLoop] at hok ⊢
      cases hs : sumSizes (entries2.map (fun p => p.2)) 0 with
      | none => simp [hs] at hok
      | some s =>
        simp only [hs] at hok
        dsimp only at hok ⊢
        exact ih _ _ _ hok
          (by simp [h1, List.map_append, List.sum_append])
          (by simp [h2, List.map_append, List.sum_append])
    | num n => simp [processLoop] at hok
    | str s => simp [processLoop] at hok
    | bool b => simp [processLoop] at hok
    | null => simp [processLoop] at hok
    | arr l => simp [processLoop] at hok

/-- A successful run of the `_search_in_type` loop returns exactly the
objects whose `searchStep` is a positive match. -/
theorem searchInTypeLoop_eq (sid sav : Option String) :
    ∀ (objs l : List (String × JValue)),
      searchInTypeLoop sid sav objs = some l →
      l = objs.filter (fun p => decide (searchStep sid sav p.1 p.2 = some true)) := by
  intro objs
  induction objs with
  | nil =>
    intro l h
    rw [searchInTypeLoop] at h
    rw [Option.some.injEq] at h
    simp [← h]
  | cons p rest ih =>
    intro l h
    obtain ⟨id, od⟩ := p
    rw [searchInTypeLoop] at h
    cases hs : searchStep sid sav id od with
    | none => rw [hs] at h; exact Option.noConfusion h
    | some b =>
      rw [hs] at h
      cases b with
      | false =>
        have hd : decide (searchStep sid sav id od = some true) = false := by
          simp [hs]
        rw [List.filter_cons, hd]
        simp only [Bool.false_eq_true, if_false]
        exact ih l h
      | true =>
        cases hrest : searchInTypeLoop sid sav rest with
        | none => rw [hrest] at h; exact Option.noConfusion h
        | some l2 =>
          rw [hrest] at h
          simp only [Option.map] at h
          rw [Option.some.injEq] at h
          subst h
          have hd : decide (searchStep sid sav id od = some true) = true := by
            simp [hs]
          rw [List.filter_cons, hd]
          rw [if_pos rfl]
          rw [← ih l2 hrest]

/-- `searchStep` reports a positive match exactly when the id predicate
passes and, if an attribute needle is active, some attribute matches. -/
theorem searchStep_iff (sid sav : Option String) (id : String) (od : JValue) :
    searchStep sid sav id od = some true ↔
      (idMatches sid id = true ∧
       (truthyOpt sav = true → attrAnyMatch (sav.getD "") od = some true)) := by
  cases hm : idMatches sid id <;> cases ht : truthyOpt sav <;>
    simp [searchStep, hm, ht]

/-- The id predicate passes exactly when the needle, if truthy, occurs in
the object id. -/
theorem idMatches_iff (sid : Option String) (id : String) :
    idMatches sid id = true ↔
      (truthyOpt sid = true → strContains id (sid.getD "") = true) := by
  cases h : truthyOpt sid <;> simp [idMatches, h]

/-- Loading dump A succeeds and produces the expected store. -/
theorem storeA_eq : storeA = ⟨dumpA, [("Foo", aggFooA)], 2, 300⟩ := rfl

/-- Loading dump B succeeds and produces the expected store. -/
theorem storeB_eq : storeB = ⟨dumpB, [("Foo", aggFooB)], 2, 200⟩ := rfl

/-- Loading dump C succeeds and produces the expected store. -/
theorem storeC_eq : storeC = ⟨dumpC, [("Bar", aggBarC)], 1, 50⟩ := rfl

/-- C1: the claim is false as stated: re-loading a parseable but
structurally invalid file over a previously loaded store raises the
validation error, yet `data` now holds the newly parsed content, so the
observable state (which includes `data`) did change. -/
theorem C1_counterexample :
    (load_data storeA (.parsed (.obj []))).2 = some (.validation .emptyDump) ∧
    (load_data storeA (.parsed (.obj []))).1.data ≠ storeA.data := by
  refine ⟨rfl, ?_⟩
  intro h
  have h2 : JValue.obj [] = dumpA := h
  rw [dumpA] at h2
  simp at h2

/-- C1 (amended): a load failing with file-not-found or a parse error
leaves the whole observable state unchanged, and a load failing
structural validation leaves `processed_data`, `total_objects` and
`total_size` unchanged while `data` holds the newly parsed value. -/
theorem C1_fatal_load_aborts (st : Store) (f : FileContent) (st' : Store)
    (e : LoadError) (h : load_data st f = (st', some e)) :
    (e = .fileNotFound → st' = st) ∧
    (e = .parseError → st' = st) ∧
    (∀ ve, e = .validation ve →
      st'.processed_data = st.processed_data ∧
      st'.total_objects = st.total_objects ∧
      st'.total_size = st.total_size ∧
      ∃ v, f = .parsed v ∧ st'.data = v ∧
        validate_dump_structure v = .error ve) := by
  cases f with
  | missing =>
    rw [load_data, Prod.mk.injEq] at h
    obtain ⟨h1, h2⟩ := h
    rw [Option.some.injEq] at h2
    subst h1
    subst h2
    exact ⟨fun _ => rfl, fun hc => absurd hc (by simp),
      fun ve hc => absurd hc (by simp)⟩
  | invalid =>
    rw [load_data, Prod.mk.injEq] at h
    obtain ⟨h1, h2⟩ := h
    rw [Option.some.injEq] at h2
    subst h1
    subst h2
    exact ⟨fun hc => absurd hc (by simp), fun _ => rfl,
      fun ve hc => absurd hc (by simp)⟩
  | parsed v =>
    rw [load_data] at h
    cases hv : validate_dump_structure v with
    | error ve0 =>
      rw [hv] at h
      dsimp only at h
      rw [Prod.mk.injEq] at h
      obtain ⟨h1, h2⟩ := h
      rw [Option.some.injEq] at h2
      subst h1
      subst h2
      refine ⟨fun hc => absurd hc (by simp), fun hc => absurd hc (by simp), ?_⟩
      intro ve hveq
      rw [LoadError.validation.injEq] at hveq
      subst hveq
      exact ⟨rfl, rfl, rfl, v, rfl, rfl, hv⟩
    | ok ws =>
      rw [hv] at h
      dsimp only at h
      rw [Prod.mk.injEq] at h
      obtain ⟨h1, h2⟩ := h
      cases hr : (process_data { st with data := v }).2 with
      | true => rw [hr] at h2; simp at h2
      | false =>
        rw [hr] at h2
        rw [if_neg (by simp)] at h2
        rw [Option.some.injEq] at h2
        subst h2
        exact ⟨fun hc => absurd hc (by simp), fun hc => absurd hc (by simp),
          fun ve hc => absurd hc (by simp)⟩

/-- Witness for the amended C1 at the concrete validation-failure load. -/
theorem C1_fatal_load_aborts_witness :
    (load_data storeA (.parsed (.obj []))).1.processed_data = storeA.processed_data ∧
    (load_data storeA (.parsed (.obj []))).1.total_objects = storeA.total_objects ∧
    (load_data storeA (.parsed (.obj []))).1.total_size = storeA.total_size := by
  have h := C1_fatal_load_aborts storeA (.parsed (.obj []))
      (load_data storeA (.parsed (.obj []))).1 (.validation .emptyDump) rfl
  obtain ⟨hp, ho, hs, -⟩ := h.2.2 .emptyDump rfl
  exact ⟨hp, ho, hs⟩

/-- C2: the code violates the claim: the asynchronous loader never calls
`validate_dump_structure`, so an empty-object dump loads through
`_load_in_background` without error and leaves a zero-total store,
while the synchronous path raises the validation error for the same
input. -/
theorem C2_async_load_skips_validation :
    load_in_background storeA (.parsed (.obj [])) =
      ((⟨.obj [], [], 0, 0⟩ : Store), none) ∧
    validate_dump_structure (.obj []) = .error .emptyDump ∧
    (load_data storeA (.parsed (.obj []))).2 = some (.validation .emptyDump) :=
  ⟨rfl, rfl, rfl⟩

/-- C3: the code violates the claim for non-numeric sizes: validation only
records a diagnostic, but the aggregation sum then raises (adding an int
and a str), so the load aborts with the runtime error instead of
treating the size as 0; a missing size, by contrast, does load and
contributes 0 as claimed. -/
theorem C3_non_numeric_size_aborts :
    validate_dump_structure badSizeDump = .ok [.nonNumericSize "T" "1"] ∧
    (load_data Store.init (.parsed badSizeDump)).2 = some .runtimeError ∧
    (load_data Store.init (.parsed badSizeDump)).1.processed_data = [] ∧
    validate_dump_structure missingSizeDump = .ok [.missingSize "T" "1"] ∧
    (load_data Store.init (.parsed missingSizeDump)).2 = none ∧
    (load_data Store.init (.parsed missingSizeDump)).1.total_size = 0 ∧
    (load_data Store.init (.parsed missingSizeDump)).1.processed_data.map
      (fun p => (p.1, p.2.num_objects, p.2.total_size)) = [("T", 1, 0)] :=
  ⟨rfl, rfl, rfl, rfl, rfl, rfl, rfl⟩

/-- The clamping `if` used by `compare_with` is `max` against 0. -/
theorem ite_pos_eq_max (x : Int) : (if x > 0 then x else 0) = max x 0 := by
  rcases le_or_lt x 0 with h | h
  · rw [if_neg (not_lt.mpr h), max_eq_right h]
  · rw [if_pos h, max_eq_left h.le]

/-- C4: every type in the union of the two stores receives one entry whose
fields follow the claimed formulas (missing sides defaulting to the zero
aggregate), and on the spec example the Foo entry is exactly the claimed
record with percent change -100/3. -/
theorem C4_compare_formula :
    (∀ (A B : Store) (t : String) (e : CompEntry),
      List.lookup t (compare_with A B) = some e →
      e.num_objects_main = (lookupAgg A.processed_data t).num_objects ∧
      e.num_objects_other = (lookupAgg B.processed_data t).num_objects ∧
      e.total_size_main = (lookupAgg A.processed_data t).total_size ∧
      e.total_size_other = (lookupAgg B.processed_data t).total_size ∧
      e.num_new_objects =
        max ((e.num_objects_other : Int) - (e.num_objects_main : Int)) 0 ∧
      e.num_deleted_objects =
        max ((e.num_objects_main : Int) - (e.num_objects_other : Int)) 0 ∧
      e.size_change = e.total_size_other - e.total_size_main ∧
      (0 < e.total_size_main →
        e.size_percent_change =
          (e.size_change : ℚ) / (e.total_size_main : ℚ) * 100)) ∧
    (∀ (A B : Store) (t : String),
      (List.lookup t (compare_with A B)).isSome ↔
        t ∈ A.processed_data.map (fun p => p.1) ∨
        t ∈ B.processed_data.map (fun p => p.1)) ∧
    (∀ (A : Store) (t : String), t ∉ A.processed_data.map (fun p => p.1) →
      lookupAgg A.processed_data t = defaultAgg) ∧
    List.lookup "Foo" (compare_with storeA storeB) =
      some ⟨2, 2, 0, 0, 300, 200, -100, -100/3⟩ := by
  refine ⟨?_, ?_, ?_, ?_⟩
  · intro A B t e h
    rw [compare_with, lookup_map_key] at h
    by_cases hm : t ∈ unionKeys (A.processed_data.map (fun p => p.1))
        (B.processed_data.map (fun p => p.1))
    · rw [if_pos hm, Option.some.injEq] at h
      subst h
      refine ⟨rfl, rfl, rfl, rfl, ite_pos_eq_max _, ite_pos_eq_max _, rfl, ?_⟩
      intro hpos
      have hne : (lookupAgg A.processed_data t).total_size ≠ 0 := hpos.ne'
      show (if (lookupAgg A.processed_data t).total_size = 0 then (0 : ℚ) else _) = _
      rw [if_neg hne]
      rfl
    · rw [if_neg hm] at h
      exact Option.noConfusion h
  · intro A B t
    rw [compare_with, lookup_map_key]
    by_cases hm : t ∈ unionKeys (A.processed_data.map (fun p => p.1))
        (B.processed_data.map (fun p => p.1))
    · rw [if_pos hm]
      simp only [Option.isSome_some, true_iff]
      exact mem_unionKeys.mp hm
    · rw [if_neg hm]
      simp only [Option.isSome_none, Bool.false_eq_true, false_iff]
      intro hc
      exact hm (mem_unionKeys.mpr hc)
  · intro A t ht
    rw [lookupAgg, (lookup_eq_none_iff _ _).mpr ht]
    rfl
  · rw [storeA_eq, storeB_eq]
    simp [compare_with, unionKeys, lookupAgg, defaultAgg, mkCompEntry,
      List.lookup, aggFooA, aggFooB]
    norm_num

/-- Witness for C4 at the Foo entry of the spec example. -/
theorem C4_compare_formula_witness :
    entryFooAB.size_percent_change =
      (entryFooAB.size_change : ℚ) / (entryFooAB.total_size_main : ℚ) * 100 :=
  (C4_compare_formula.1 storeA storeB "Foo" entryFooAB rfl).2.2.2.2.2.2.2
    (by decide)

/-- C5: whenever a comparison entry has a zero main total size (for
example a type absent from the main store), its percent change is 0; in
the exact-rational model no division error, infinity or NaN can arise. -/
theorem C5_zero_main_size_percent_zero (A B : Store) (t : String) (e : CompEntry)
    (h : List.lookup t (compare_with A B) = some e)
    (h0 : e.total_size_main = 0) : e.size_percent_change = 0 := by
  rw [compare_with, lookup_map_key] at h
  by_cases hm : t ∈ unionKeys (A.processed_data.map (fun p => p.1))
      (B.processed_data.map (fun p => p.1))
  · rw [if_pos hm, Option.some.injEq] at h
    subst h
    simp only [mkCompEntry] at h0 ⊢
    rw [if_pos h0]
  · rw [if_neg hm] at h
    exact Option.noConfusion h

/-- Witness for C5: Bar exists only in store C, so comparing store A
against store C yields a Bar entry with zero main size and zero percent
change. -/
theorem C5_zero_main_witness : entryBarAC.size_percent_change = 0 :=
  C5_zero_main_size_percent_zero storeA storeC "Bar" entryBarAC rfl (by decide)

/-- C6: each object id in the union of the two stores' ids for a type gets
exactly one status, characterized by presence on each side with Python
equality separating Old from Modified; on the spec example ids 1, 2 and
3 get Modified, Deleted and New. -/
theorem C6_status_partition :
    (∀ (A : Store) (t : String) (B : Store) (id : String),
      ((List.lookup id (get_object_statuses A t B)).isSome ↔
        (List.lookup id (typeObjects A t)).isSome ∨
        (List.lookup id (typeObjects B t)).isSome) ∧
      (List.lookup id (get_object_statuses A t B) = some .Deleted ↔
        (List.lookup id (typeObjects A t)).isSome ∧
        List.lookup id (typeObjects B t) = none) ∧
      (List.lookup id (get_object_statuses A t B) = some .New ↔
        List.lookup id (typeObjects A t) = none ∧
        (List.lookup id (typeObjects B t)).isSome) ∧
      (List.lookup id (get_object_statuses A t B) = some .Modified ↔
        ∃ a b, List.lookup id (typeObjects A t) = some a ∧
          List.lookup id (typeObjects B t) = some b ∧ pyEq a b = false) ∧
      (List.lookup id (get_object_statuses A t B) = some .Old ↔
        ∃ a b, List.lookup id (typeObjects A t) = some a ∧
          List.lookup id (typeObjects B t) = some b ∧ pyEq a b = true)) ∧
    get_object_statuses storeA "Foo" storeB =
      [("1", .Modified), ("2", .Deleted), ("3", .New)] := by
  constructor
  · intro A t B id
    have he : get_object_statuses A t B =
        (unionKeys ((typeObjects A t).map (fun p => p.1))
          ((typeObjects B t).map (fun p => p.1))).map
          (fun x => (x, statusOf (typeObjects A t) (typeObjects B t) x)) := rfl
    rw [he, lookup_map_key]
    rcases hc : List.lookup id (typeObjects A t) with _ | a <;>
      rcases ho : List.lookup id (typeObjects B t) with _ | b
    · have hm : id ∉ unionKeys ((typeObjects A t).map (fun p => p.1))
          ((typeObjects B t).map (fun p => p.1)) := by
        intro hmem
        rcases mem_unionKeys.mp hmem with h1 | h1
        · exact absurd ((lookup_isSome_iff _ _).mpr h1) (by simp [hc])
        · exact absurd ((lookup_isSome_iff _ _).mpr h1) (by simp [ho])
      rw [if_neg hm]
      simp [hc, ho]
    · have hm : id ∈ unionKeys ((typeObjects A t).map (fun p => p.1))
          ((typeObjects B t).map (fun p => p.1)) :=
        mem_unionKeys.mpr (Or.inr ((lookup_isSome_iff _ _).mp (by simp [ho])))
      rw [if_pos hm]
      simp [statusOf, hc, ho]
    · have hm : id ∈ unionKeys ((typeObjects A t).map (fun p => p.1))
          ((typeObjects B t).map (fun p => p.1)) :=
        mem_unionKeys.mpr (Or.inl ((lookup_isSome_iff _ _).mp (by simp [hc])))
      rw [if_pos hm]
      simp [statusOf, hc, ho]
    · have hm : id ∈ unionKeys ((typeObjects A t).map (fun p => p.1))
          ((typeObjects B t).map (fun p => p.1)) :=
        mem_unionKeys.mpr (Or.inl ((lookup_isSome_iff _ _).mp (by simp [hc])))
      rw [if_pos hm]
      cases hpy : pyEq a b with
      | true => simp [statusOf, hc, ho, hpy]
      | false => simp [statusOf, hc, ho, hpy]
  · rfl

/-- C7: a type's entry survives `filter_comparison_by_status` unchanged
exactly when the status list is empty or at least one requested status's
condition holds for that entry. -/
theorem C7_filter_comparison_by_status (cr : List (String × CompEntry))
    (statuses : List String) (hnd : (cr.map (fun p => p.1)).Nodup)
    (t : String) (e : CompEntry) :
    List.lookup t (filter_comparison_by_status cr statuses) = some e ↔
      List.lookup t cr = some e ∧
      (statuses = [] ∨
        ("New" ∈ statuses ∧ 0 < e.num_new_objects) ∨
        ("Deleted" ∈ statuses ∧ 0 < e.num_deleted_objects) ∨
        ("Old" ∈ statuses ∧ e.num_objects_main = e.num_objects_other ∧
          e.num_new_objects = 0 ∧ e.num_deleted_objects = 0) ∨
        ("Modified" ∈ statuses ∧ e.num_objects_other ≠ e.num_objects_main)) := by
  rw [filter_comparison_by_status, lookup_filter_nodup cr _ hnd]
  apply and_congr_right
  intro _
  simp only [statusCondMatches, Bool.or_eq_true, Bool.and_eq_true,
    decide_eq_true_eq, List.isEmpty_iff]
  simp
  tauto

/-- Witness for C7: with an empty status list the Foo entry passes the
filter unchanged. -/
theorem C7_filter_witness :
    List.lookup "Foo" (filter_comparison_by_status (compare_with storeA storeB) []) =
      some entryFooAB :=
  (C7_filter_comparison_by_status (compare_with storeA storeB) [] (by decide)
      "Foo" entryFooAB).mpr ⟨rfl, Or.inl rfl⟩

/-- C8: a successful single-type search keeps exactly the objects of the
type that pass the id-substring predicate and, when an attribute needle
is active, have a matching attribute value; the returned aggregate's
count and size are recomputed from the survivors (an empty survivor set
yields an empty mapping). -/
theorem C8_search_single_type (st : Store) (t : String) (sid sav : Option String)
    (r : List (String × TypeAgg))
    (h : search_objects st t sid sav false = some r) :
    (∀ id od, (∃ agg, r = [(t, agg)] ∧ (id, od) ∈ agg.objects) ↔
      ((id, od) ∈ typeObjects st t ∧ idMatches sid id = true ∧
       (truthyOpt sav = true → attrAnyMatch (sav.getD "") od = some true))) ∧
    (∀ agg, r = [(t, agg)] →
      agg.num_objects = agg.objects.length ∧
      sumSizes (agg.objects.map (fun p => p.2)) 0 = some agg.total_size) := by
  rw [search_objects] at h
  rw [if_neg (by simp)] at h
  cases hst : searchInType st t sid sav with
  | none => rw [hst] at h; exact Option.noConfusion h
  | some filtered =>
    rw [hst] at h
    dsimp only at h
    have hf : filtered = (typeObjects st t).filter
        (fun p => decide (searchStep sid sav p.1 p.2 = some true)) :=
      searchInTypeLoop_eq sid sav (typeObjects st t) filtered hst
    by_cases he : filtered.isEmpty
    · rw [if_pos he] at h
      rw [Option.some.injEq] at h
      subst h
      constructor
      · intro id od
        constructor
        · rintro ⟨agg, hagg, -⟩
          exact absurd hagg (by simp)
        · rintro ⟨hmem, hid, hattr⟩
          exfalso
          have hstep : searchStep sid sav id od = some true :=
            (searchStep_iff sid sav id od).mpr ⟨hid, hattr⟩
          have hin : (id, od) ∈ filtered := by
            rw [hf]
            exact List.mem_filter.mpr ⟨hmem, by simp [hstep]⟩
          rw [List.isEmpty_iff] at he
          rw [he] at hin
          exact absurd hin (by simp)
      · intro agg hagg
        exact absurd hagg (by simp)
    · rw [if_neg he] at h
      cases hs : sumSizes (filtered.map (fun p => p.2)) 0 with
      | none => rw [hs] at h; exact Option.noConfusion h
      | some s =>
        rw [hs] at h
        dsimp only at h
        rw [Option.some.injEq] at h
        subst h
        constructor
        · intro id od
          constructor
          · rintro ⟨agg, hagg, hmem⟩
            have h2 : (⟨filtered.length, s, filtered⟩ : TypeAgg) = agg := by
              simpa using hagg
            rw [← h2] at hmem
            have hmem2 : (id, od) ∈ filtered := hmem
            rw [hf] at hmem2
            obtain ⟨hm1, hm2⟩ := List.mem_filter.mp hmem2
            rw [decide_eq_true_eq] at hm2
            obtain ⟨hid, hattr⟩ := (searchStep_iff sid sav id od).mp hm2
            exact ⟨hm1, hid, hattr⟩
          · rintro ⟨hmem, hid, hattr⟩
            refine ⟨⟨filtered.length, s, filtered⟩, rfl, ?_⟩
            show (id, od) ∈ filtered
            rw [hf]
            exact List.mem_filter.mpr ⟨hmem,
              by simp [(searchStep_iff sid sav id od).mpr ⟨hid, hattr⟩]⟩
        · intro agg hagg
          have h2 : (⟨filtered.length, s, filtered⟩ : TypeAgg) = agg := by
            simpa using hagg
          rw [← h2]
          exact ⟨rfl, hs⟩

/-- Witness for C8: searching store A's Foo for ids containing 1 keeps
exactly object 1, with count and size recomputed from the survivor. -/
theorem C8_search_witness :
    aggFoo1.num_objects = aggFoo1.objects.length ∧
    sumSizes (aggFoo1.objects.map (fun p => p.2)) 0 = some aggFoo1.total_size :=
  (C8_search_single_type storeA "Foo" (some "1") none [("Foo", aggFoo1)] rfl).2
    aggFoo1 rfl

/-- C9: when `process_data` completes without raising, the store's grand
`total_size` and `total_objects` equal the sums of the per-type
aggregates' `total_size` and `num_objects`. -/
theorem C9_totals_are_sums (st st' : Store) (h : process_data st = (st', true)) :
    st'.total_size = (st'.processed_data.map (fun p => p.2.total_size)).sum ∧
    st'.total_objects = (st'.processed_data.map (fun p => p.2.num_objects)).sum := by
  rw [process_data] at h
  cases hd : st.data with
  | obj entries =>
    rw [hd] at h
    dsimp only at h
    rw [Prod.mk.injEq] at h
    obtain ⟨h1, h2⟩ := h
    have hs := processLoop_sums entries [] 0 0 h2 rfl rfl
    rw [← h1]
    exact ⟨hs.2, hs.1⟩
  | num n => rw [hd] at h; simp at h
  | str s2 => rw [hd] at h; simp at h
  | bool b => rw [hd] at h; simp at h
  | null => rw [hd] at h; simp at h
  | arr l => rw [hd] at h; simp at h

/-- Witness for C9 on the loaded store A. -/
theorem C9_totals_witness :
    storeA.total_size = (storeA.processed_data.map (fun p => p.2.total_size)).sum ∧
    storeA.total_objects = (storeA.processed_data.map (fun p => p.2.num_objects)).sum :=
  C9_totals_are_sums storeA storeA rfl

/-- C10: the all-types search returns one entry keyed by the passed type
name, whose objects are the update-merge of the per-type matches with the
latest type winning per id and whose count is the merged size; on store D
the per-type matches for id x (one in T1, one in T2) merge to a single
surviving object carrying the record from T2. -/
theorem C10_search_all_types_merge :
    (∀ (st : Store) (t : String) (sid sav : Option String)
      (r : List (String × TypeAgg)),
      search_objects st t sid sav true = some r →
      r.map (fun p => p.1) = [t] ∧
      (collectSearches st sid sav (st.processed_data.map (fun p => p.1))).isSome ∧
      (∀ agg fs, r = [(t, agg)] →
        collectSearches st sid sav (st.processed_data.map (fun p => p.1)) = some fs →
        agg.objects = fs.foldl dictUpdate [] ∧
        (∀ id, List.lookup id agg.objects =
          fs.reverse.findSome? (fun d => List.lookup id d)) ∧
        agg.num_objects = agg.objects.length ∧
        sumSizes (agg.objects.map (fun p => p.2)) 0 = some agg.total_size)) ∧
    (search_objects storeD "T1" none none true = some [("T1", aggMergedD)] ∧
     searchInType storeD "T1" none none = some [("x", .obj [("size", .num 1)])] ∧
     searchInType storeD "T2" none none = some [("x", .obj [("size", .num 2)])] ∧
     aggMergedD.num_objects = 1) := by
  constructor
  · intro st t sid sav r h
    rw [search_objects] at h
    rw [if_pos rfl] at h
    rw [searchAllLoop_eq] at h
    cases hc : collectSearches st sid sav (st.processed_data.map (fun p => p.1)) with
    | none => rw [hc] at h; exact Option.noConfusion h
    | some fs =>
      rw [hc] at h
      simp only [Option.map] at h
      cases hsum : sumSizes ((fs.foldl dictUpdate []).map (fun p => p.2)) 0 with
      | none => rw [hsum] at h; exact Option.noConfusion h
      | some s =>
        rw [hsum] at h
        dsimp only at h
        rw [Option.some.injEq] at h
        subst h
        refine ⟨rfl, rfl, ?_⟩
        intro agg fs2 h1 h2
        rw [Option.some.injEq] at h2
        subst h2
        have h3 : (⟨(fs.foldl dictUpdate []).length, s,
            fs.foldl dictUpdate []⟩ : TypeAgg) = agg := by
          simpa using h1
        rw [← h3]
        refine ⟨rfl, ?_, rfl, hsum⟩
        intro id
        have hob : (⟨(fs.foldl dictUpdate []).length, s,
            fs.foldl dictUpdate []⟩ : TypeAgg).objects = fs.foldl dictUpdate [] := rfl
        rw [hob, lookup_foldl_dictUpdate]
        cases hrev : fs.reverse.findSome? (fun d => List.lookup id d) <;>
          simp [List.lookup]
  · exact ⟨rfl, rfl, rfl, rfl⟩

/-- Witness for C10 at the concrete all-types search over store D. -/
theorem C10_search_witness :
    (collectSearches storeD none none
      (storeD.processed_data.map (fun p => p.1))).isSome :=
  (C10_search_all_types_merge.1 storeD "T1" none none [("T1", aggMergedD)] rfl).2.1

/-- Witness for C6: object 1 is present in both stores with different
records, so its status is Modified. -/
theorem C6_status_witness :
    List.lookup "1" (get_object_statuses storeA "Foo" storeB) = some .Modified :=
  (C6_status_partition.1 storeA "Foo" storeB "1").2.2.2.1.mpr
    ⟨JValue.obj [("size", JValue.num 100)], JValue.obj [("size", JValue.num 150)],
      rfl, rfl, rfl⟩
